import Mathlib

/-!
Verification of the read-doc (Verbatim Extractor) repository.

The repository ships a React frontend (Dashboard, auth, Firebase storage
helpers) around a document-extraction core. The extraction core itself
(api/index.py, the FastAPI backend) is not present among the available
source files, so its data model and operations are modelled from the
specification; the frontend pieces (Dashboard.jsx, firebase.js) are
embedded from their JavaScript source.
-/

namespace ReadDoc

/-- Modelled from the spec: the extraction core (api/index.py) is missing
from the sources. A Run is an atomic span of text with formatting
attributes: text, bold flag, underline flag, and an optional highlight
color whose absence means no highlight (spec section 3). -/
structure Run where
  text : String
  bold : Bool
  underline : Bool
  highlightColor : Option String
deriving DecidableEq, Repr

/-- Modelled from the spec: a Paragraph is an ordered sequence of Runs plus
paragraph-level formatting that is copied unchanged to any retained output
paragraph (spec section 3); the formatting is opaque to the core, so it is
kept as an uninterpreted string. -/
structure Paragraph where
  runs : List Run
  formatting : String
deriving DecidableEq, Repr

/-- Modelled from the spec: a Document is an ordered sequence of
Paragraphs (spec section 3). -/
abbrev Document := List Paragraph

/-- Modelled from the spec: the ExtractionMode enumeration
HIGHLIGHTED, UNDERLINED, EITHER (spec section 3). -/
inductive ExtractionMode where
  | highlighted
  | underlined
  | either
deriving DecidableEq, Repr

/-- Modelled from the spec: the derived per-paragraph Classification,
STRUCTURE or BODY (spec section 3). -/
inductive Classification where
  | STRUCTURE
  | BODY
deriving DecidableEq, Repr

/-- Modelled from the spec: a non-empty run is one whose text content,
after trimming structural-only whitespace, is non-empty (spec section 3);
equivalently, one whose text contains some non-whitespace character. -/
def isNonEmptyRun (r : Run) : Bool :=
  r.text.data.any (fun c => !c.isWhitespace)

/-- Modelled from the spec: the non-empty runs of a paragraph. -/
def Paragraph.nonEmptyRuns (p : Paragraph) : List Run :=
  p.runs.filter isNonEmptyRun

/-- Modelled from the spec: the classifier rule of section 4.2. A paragraph
is STRUCTURE iff it has at least one non-empty run and every non-empty run
in it is bold; otherwise it is BODY. -/
def classify (p : Paragraph) : Classification :=
  if !p.nonEmptyRuns.isEmpty && p.nonEmptyRuns.all (fun r => r.bold) then
    Classification.STRUCTURE
  else
    Classification.BODY

/-- Modelled from the spec: the per-mode predicate table of section 4.3. -/
def modePred (m : ExtractionMode) (r : Run) : Bool :=
  match m with
  | ExtractionMode.highlighted => r.highlightColor.isSome
  | ExtractionMode.underlined => r.underline
  | ExtractionMode.either => r.highlightColor.isSome || r.underline

/-- Modelled from the spec: keep(run, mode) of section 4.3; a run with
empty text is never kept regardless of formatting. -/
def keep (r : Run) (m : ExtractionMode) : Bool :=
  decide (r.text ≠ "") && modePred m r

/-- Modelled from the spec: the per-paragraph step of the Assembler,
section 4.4. A STRUCTURE paragraph is copied unchanged with all of its
runs; a BODY paragraph keeps only the runs passing the filter, in their
original order, and is dropped entirely when nothing remains. -/
def emitParagraph (m : ExtractionMode) (p : Paragraph) : Option Paragraph :=
  match classify p with
  | Classification.STRUCTURE => some p
  | Classification.BODY =>
    let kept := p.runs.filter (fun r => keep r m)
    if kept.isEmpty then none else some { p with runs := kept }

/-- Modelled from the spec: the Document Assembler of section 4.4 over a
whole document, emitting paragraphs in original order. -/
def assemble (doc : Document) (m : ExtractionMode) : Document :=
  doc.filterMap (emitParagraph m)

/-- Runs of the emitted output for one input paragraph; empty when the
paragraph is dropped. -/
def outputRuns (m : ExtractionMode) (p : Paragraph) : List Run :=
  match emitParagraph m p with
  | none => []
  | some q => q.runs

/-- Per-paragraph transformation before the drop-if-empty decision:
STRUCTURE paragraphs are unchanged, BODY paragraphs have their runs
filtered. Used to state order preservation. -/
def transformParagraph (m : ExtractionMode) (p : Paragraph) : Paragraph :=
  match classify p with
  | Classification.STRUCTURE => p
  | Classification.BODY => { p with runs := p.runs.filter (fun r => keep r m) }

/-- Modelled from the spec: the fatal error taxonomy of section 7. -/
inductive ExtractError where
  | MalformedDocumentError
  | UnsupportedFormatError
deriving DecidableEq, Repr

/-- Modelled from the spec: input byte streams abstracted by their parse
status (spec section 4.1): a malformed package, a package whose main
content part cannot be located, or a well-formed package denoting a
document. -/
inductive Bytes where
  | malformed
  | missingMainPart
  | wellFormed (doc : Document)
deriving DecidableEq, Repr

/-- Modelled from the spec: the Document Reader of section 4.1, a pure
parse failing with MalformedDocumentError on an invalid package and with
UnsupportedFormatError when the main content part is missing. -/
def read : Bytes → Except ExtractError Document
  | Bytes.malformed => Except.error ExtractError.MalformedDocumentError
  | Bytes.missingMainPart => Except.error ExtractError.UnsupportedFormatError
  | Bytes.wellFormed d => Except.ok d

/-- Modelled from the spec: serialization emits a structurally valid
package of the assembled document (spec section 4.4). -/
def serialize (d : Document) : Bytes :=
  Bytes.wellFormed d

/-- Modelled from the spec: the Extraction Orchestrator of section 4.5,
composing Reader, Classifier, Filter and Assembler, propagating Reader
failures unchanged. -/
def extract (b : Bytes) (m : ExtractionMode) : Except ExtractError Bytes :=
  match read b with
  | Except.error e => Except.error e
  | Except.ok d => Except.ok (serialize (assemble d m))

/-- Mode option entry rendered by the Dashboard
(src/unnamed/part_001, modeOptions). -/
structure ModeOption where
  id : String
  label : String
  description : String
  icon : String
deriving DecidableEq, Repr

/-- The modeOptions array of Dashboard.jsx (src/unnamed/part_001,
lines 99 to 118). The Highlighted OR Underlined entry is commented out in
the source, so only two options are offered. -/
def modeOptions : List ModeOption :=
  [ { id := "highlighted", label := "Highlighted",
      description := "Keeps text with a highlight color applied",
      icon := "◉" },
    { id := "underlined", label := "Underlined",
      description := "Keeps underlined text",
      icon := "◈" } ]

/-- Dashboard component state relevant to the process request
(src/unnamed/part_001, useState hooks): the selected file, the selected
mode (null until a mode option is clicked), and the stage. -/
structure DashState where
  file : Option String
  mode : Option String
  stage : String
deriving DecidableEq, Repr

/-- Initial Dashboard state (src/unnamed/part_001, lines 9 to 11). -/
def initialDash : DashState :=
  { file := none, mode := none, stage := "idle" }

/-- The isProcessing flag of Dashboard.jsx (line 120). -/
def isProcessing (s : DashState) : Bool :=
  s.stage == "uploading" || s.stage == "processing"

/-- The condition under which handleProcess fires and sends a request:
the process button is rendered only in stage idle and is disabled unless
both a file and a mode are selected (src/unnamed/part_001,
lines 243 to 248), and handleProcess returns early without a file. -/
def sendsRequest (s : DashState) : Bool :=
  s.stage == "idle" && s.file.isSome && s.mode.isSome

/-- Reachable Dashboard states under the state updates present in
Dashboard.jsx: onDrop sets the file and resets the stage to idle; clicking
a rendered mode option (all drawn from modeOptions, disabled while
processing) sets the mode to that option id; handleProcess moves an
enabled idle state to uploading and later stages; reset clears the file
and returns to idle without touching the mode; the error-state button
returns to idle. -/
inductive DashReachable : DashState → Prop where
  | init : DashReachable initialDash
  | drop (s : DashState) (f : String) :
      DashReachable s →
      DashReachable { s with file := some f, stage := "idle" }
  | selectMode (s : DashState) (o : ModeOption) :
      DashReachable s → o ∈ modeOptions → isProcessing s = false →
      DashReachable { s with mode := some o.id }
  | startProcess (s : DashState) :
      DashReachable s → sendsRequest s = true →
      DashReachable { s with stage := "uploading" }
  | setStage (s : DashState) (st : String) :
      DashReachable s → isProcessing s = true →
      DashReachable { s with stage := st }
  | reset (s : DashState) :
      DashReachable s →
      DashReachable { s with file := none, stage := "idle" }
  | tryAgain (s : DashState) :
      DashReachable s → s.stage = "error" →
      DashReachable { s with stage := "idle" }

/-- Modelled from the spec: the request boundary (the backend handler,
absent from the sources) accepts a mode selector offering HIGHLIGHTED and
UNDERLINED, with mode EITHER as the default or fallback when no mode is
forced (spec section 6). -/
def requestBoundaryMode : Option String → ExtractionMode
  | some "highlighted" => ExtractionMode.highlighted
  | some "underlined" => ExtractionMode.underlined
  | _ => ExtractionMode.either

/-- Formalization of the reachability clause of the claim on the request
boundary: some reachable Dashboard state sends a request that the boundary
resolves to mode EITHER. -/
def EitherReachable : Prop :=
  ∃ s : DashState, DashReachable s ∧ sendsRequest s = true ∧
    requestBoundaryMode s.mode = ExtractionMode.either

/-- Result of the storage upload helper
(src/frontend/src/lib/firebase.js, uploadFile): the storage path and the
returned file name. The download URL is opaque and omitted. -/
structure UploadResult where
  path : String
  name : String
deriving DecidableEq, Repr

/-- The uploadFile helper of src/frontend/src/lib/firebase.js,
lines 30 to 36: the name is the timestamp, an underscore and the original
file name; the storage reference is uploads/userId/name and fullPath
echoes that reference. -/
def uploadFile (fileName : String) (userId : String) (timestamp : Nat) :
    UploadResult :=
  let name := toString timestamp ++ "_" ++ fileName
  { path := "uploads/" ++ userId ++ "/" ++ name, name := name }

/-- Example run: fully bold tag text, as in scenario A of the spec. -/
def rBold : Run :=
  { text := "Smith 2020", bold := true, underline := false,
    highlightColor := none }

/-- Example run: unmarked body text. -/
def rPlain : Run :=
  { text := "foo", bold := false, underline := false, highlightColor := none }

/-- Example run: highlighted body text. -/
def rHi : Run :=
  { text := "bar", bold := false, underline := false,
    highlightColor := some "yellow" }

/-- Example run: underlined body text. -/
def rUnder : Run :=
  { text := "baz", bold := false, underline := true, highlightColor := none }

/-- Example run: whitespace-only text. -/
def rWs : Run :=
  { text := " ", bold := false, underline := false, highlightColor := none }

/-- Example paragraph: a tag line, all non-empty runs bold. -/
def pTag : Paragraph := { runs := [rBold], formatting := "Heading2" }

/-- Example paragraph: body text with unmarked, highlighted and underlined
runs, as in scenario A of the spec. -/
def pBody : Paragraph := { runs := [rPlain, rHi, rUnder], formatting := "Normal" }

/-- Example paragraph: whitespace-only runs. -/
def pWs : Paragraph := { runs := [rWs], formatting := "Normal" }

/-- Example paragraph: body text with no marked run. -/
def pPlain : Paragraph := { runs := [rPlain], formatting := "Normal" }

/-- Example document: one tag paragraph followed by one body paragraph. -/
def docAB : Document := [pTag, pBody]

/-- Example Dashboard state after dropping a file and selecting the
underlined mode option. -/
def dashAfterSelect : DashState :=
  { file := some "cards.docx", mode := some "underlined", stage := "idle" }

/-- Helper: the Assembler on a cons cell whose head is dropped. -/
lemma assemble_cons_none (p : Paragraph) (doc : Document)
    (m : ExtractionMode) (h : emitParagraph m p = none) :
    assemble (p :: doc) m = assemble doc m := by
  simp [assemble, List.filterMap_cons, h]

/-- Helper: the Assembler on a cons cell whose head is emitted. -/
lemma assemble_cons_some (p : Paragraph) (doc : Document)
    (m : ExtractionMode) (q : Paragraph) (h : emitParagraph m p = some q) :
    assemble (p :: doc) m = q :: assemble doc m := by
  simp [assemble, List.filterMap_cons, h]

/-- Helper: an emitted paragraph is exactly the per-paragraph
transformation of its input paragraph. -/
lemma emit_eq_transform (m : ExtractionMode) (p q : Paragraph)
    (h : emitParagraph m p = some q) : q = transformParagraph m p := by
  unfold emitParagraph at h
  unfold transformParagraph
  cases hcl : classify p <;> rw [hcl] at h
  · cases h
    rfl
  · dsimp only at h
    split at h
    · cases h
    · cases h
      rfl

/-- Helper: a STRUCTURE paragraph has at least one run. -/
lemma structure_runs_ne_nil (p : Paragraph)
    (hs : classify p = Classification.STRUCTURE) : p.runs ≠ [] := by
  intro hnil
  simp [classify, Paragraph.nonEmptyRuns, hnil] at hs

/-- Helper: in every reachable Dashboard state the mode is null or one of
the two offered option ids. -/
lemma dash_mode_invariant (s : DashState) (h : DashReachable s) :
    s.mode = none ∨ s.mode = some "highlighted" ∨ s.mode = some "underlined" := by
  induction h with
  | init => exact Or.inl rfl
  | drop s f hr ih => exact ih
  | selectMode s o hr hmem hp ih =>
    right
    simp only [modeOptions, List.mem_cons, List.mem_singleton,
      List.not_mem_nil, or_false] at hmem
    rcases hmem with h | h <;> rw [h]
    · exact Or.inl rfl
    · exact Or.inr rfl
  | startProcess s hr hs ih => exact ih
  | setStage s st hr hp ih => exact ih
  | reset s hr ih => exact ih
  | tryAgain s hr hst ih => exact ih

/-- C1: classify returns STRUCTURE iff the paragraph has at least one
non-empty run and every non-empty run in it is bold; a paragraph whose
runs are all whitespace has zero non-empty runs and is classified BODY. -/
theorem classify_structure_iff (p : Paragraph) :
    (classify p = Classification.STRUCTURE ↔
      ((∃ r ∈ p.runs, isNonEmptyRun r = true) ∧
        ∀ r ∈ p.runs, isNonEmptyRun r = true → r.bold = true)) ∧
    ((∀ r ∈ p.runs, ∀ c ∈ r.text.data, c.isWhitespace = true) →
      classify p = Classification.BODY) := by
  have hc : classify p = Classification.STRUCTURE ↔
      (!p.nonEmptyRuns.isEmpty && p.nonEmptyRuns.all (fun r => r.bold)) = true := by
    unfold classify
    split <;> simp_all
  constructor
  · rw [hc]
    simp [Paragraph.nonEmptyRuns, List.isEmpty_iff,
      List.filter_eq_nil_iff, List.all_eq_true, List.mem_filter]
    intro x hx hxt
    constructor
    · intro h r hr hrt
      exact (h r hr).resolve_left (by simpa using hrt)
    · intro h r hr
      exact or_iff_not_imp_left.mpr (fun hne => h r hr (by simpa using hne))
  · intro h
    unfold classify
    have hnil : p.nonEmptyRuns = [] := by
      simp [Paragraph.nonEmptyRuns, isNonEmptyRun, List.filter_eq_nil_iff,
        List.any_eq_true]
      intro r hr c hc
      exact h r hr c hc
    simp [hnil]

/-- Witness: the whitespace-only paragraph is BODY and the bold tag
paragraph is STRUCTURE, via the characterization at concrete inputs. -/
theorem classify_structure_iff_witness :
    classify pWs = Classification.BODY ∧
    classify pTag = Classification.STRUCTURE := by
  constructor
  · exact (classify_structure_iff pWs).2 (by decide)
  · exact (classify_structure_iff pTag).1.mpr
      ⟨⟨rBold, by decide, by decide⟩, by decide⟩

/-- C2: for a BODY paragraph and any mode, a run appears in the emitted
output iff it belongs to the paragraph, has non-empty text, and satisfies
the per-mode predicate of section 4.3. -/
theorem body_filter_iff (p : Paragraph) (m : ExtractionMode) (r : Run)
    (hb : classify p = Classification.BODY) :
    r ∈ outputRuns m p ↔
      (r ∈ p.runs ∧ r.text ≠ "" ∧ modePred m r = true) := by
  have hmem : r ∈ p.runs.filter (fun y => keep y m) ↔
      (r ∈ p.runs ∧ r.text ≠ "" ∧ modePred m r = true) := by
    simp [List.mem_filter, keep, and_assoc]
  have hemit : emitParagraph m p =
      (if (p.runs.filter (fun y => keep y m)).isEmpty then none
       else some { p with runs := p.runs.filter (fun y => keep y m) }) := by
    unfold emitParagraph
    rw [hb]
  rw [← hmem]
  unfold outputRuns
  rw [hemit]
  by_cases he : (p.runs.filter (fun y => keep y m)).isEmpty
  · rw [if_pos he]
    simp [List.isEmpty_iff.mp he]
  · rw [if_neg he]

/-- Witness: the filter characterization at the scenario-A body paragraph,
mode EITHER, highlighted run. -/
theorem body_filter_iff_witness :
    classify pBody = Classification.BODY ∧
    (rHi ∈ outputRuns ExtractionMode.either pBody ↔
      (rHi ∈ pBody.runs ∧ rHi.text ≠ "" ∧
        modePred ExtractionMode.either rHi = true)) :=
  ⟨by decide, body_filter_iff pBody ExtractionMode.either rHi (by decide)⟩

/-- C3: a STRUCTURE paragraph of the input is emitted unchanged (same run
count, texts and formatting, no run dropped) and appears in the assembled
output, for every mode. -/
theorem structure_preserved (doc : Document) (m : ExtractionMode)
    (p : Paragraph) (hp : p ∈ doc)
    (hs : classify p = Classification.STRUCTURE) :
    emitParagraph m p = some p ∧ p ∈ assemble doc m := by
  have he : emitParagraph m p = some p := by
    unfold emitParagraph
    rw [hs]
  refine ⟨he, ?_⟩
  unfold assemble
  exact List.mem_filterMap.mpr ⟨p, hp, he⟩

/-- Witness: the tag paragraph of the example document is preserved
verbatim under mode HIGHLIGHTED. -/
theorem structure_preserved_witness :
    emitParagraph ExtractionMode.highlighted pTag = some pTag ∧
    pTag ∈ assemble docAB ExtractionMode.highlighted :=
  structure_preserved docAB ExtractionMode.highlighted pTag
    (by decide) (by decide)

/-- C4: no paragraph of the assembled output has zero runs, for every
input document and mode. -/
theorem no_empty_paragraph (doc : Document) (m : ExtractionMode)
    (q : Paragraph) (hq : q ∈ assemble doc m) : q.runs ≠ [] := by
  unfold assemble at hq
  rcases List.mem_filterMap.mp hq with ⟨p, hp, he⟩
  unfold emitParagraph at he
  cases hcl : classify p <;> rw [hcl] at he
  · have hpq : q = p := (Option.some.inj he).symm
    rw [hpq]
    exact structure_runs_ne_nil p hcl
  · dsimp only at he
    split at he
    · cases he
    · next hne =>
      have hq2 : q = { p with runs := p.runs.filter (fun r => keep r m) } :=
        (Option.some.inj he).symm
      rw [hq2]
      intro hnil
      exact hne (List.isEmpty_iff.mpr hnil)

/-- Witness: the tag paragraph sits in the assembled example output and
has a non-empty run list. -/
theorem no_empty_paragraph_witness : pTag.runs ≠ [] :=
  no_empty_paragraph docAB ExtractionMode.underlined pTag (by decide)

/-- C5: the assembled output is a sublist of the per-paragraph transforms
of the input in original order (no reordering, no insertion), and each
retained paragraph carries a sublist of its input runs in original order
(no split, merge or synthesis). -/
theorem order_preservation (doc : Document) (m : ExtractionMode) :
    List.Sublist (assemble doc m) (doc.map (transformParagraph m)) ∧
    ∀ p ∈ doc, List.Sublist (transformParagraph m p).runs p.runs := by
  constructor
  · induction doc with
    | nil => simp [assemble]
    | cons p rest ih =>
      rw [List.map_cons]
      cases hemit : emitParagraph m p with
      | none =>
        rw [assemble_cons_none p rest m hemit]
        exact List.Sublist.cons _ ih
      | some q =>
        rw [assemble_cons_some p rest m q hemit,
          emit_eq_transform m p q hemit]
        exact List.Sublist.cons₂ _ ih
  · intro p hp
    unfold transformParagraph
    cases classify p
    · exact List.Sublist.refl _
    · exact List.filter_sublist _

/-- Witness: order preservation at the example document and its body
paragraph, mode EITHER. -/
theorem order_preservation_witness :
    List.Sublist (assemble docAB ExtractionMode.either)
      (docAB.map (transformParagraph ExtractionMode.either)) ∧
    List.Sublist (transformParagraph ExtractionMode.either pBody).runs
      pBody.runs :=
  ⟨(order_preservation docAB ExtractionMode.either).1,
   (order_preservation docAB ExtractionMode.either).2 pBody (by decide)⟩

/-- C6 counterexample: no reachable Dashboard state sends a request that
the boundary resolves to mode EITHER — the EITHER option is commented out
of modeOptions and the process button is disabled until a mode is chosen,
so the claimed reachability of EITHER fails on the code. -/
theorem either_mode_not_reachable : ¬ EitherReachable := by
  rintro ⟨s, hr, hs, he⟩
  rcases dash_mode_invariant s hr with h0 | h1 | h1
  · simp [sendsRequest, h0] at hs
  · rw [h1] at he
    exact absurd he (by decide)
  · rw [h1] at he
    exact absurd he (by decide)

/-- C6 amended: the Dashboard selector offers exactly HIGHLIGHTED and
UNDERLINED; the modelled request boundary falls back to EITHER on an
absent or unrecognized mode; but every request actually sent from a
reachable Dashboard state carries HIGHLIGHTED or UNDERLINED, so the
EITHER fallback is never exercised by the shipped caller. -/
theorem mode_selector_amended :
    modeOptions.map ModeOption.id = ["highlighted", "underlined"] ∧
    requestBoundaryMode none = ExtractionMode.either ∧
    requestBoundaryMode (some "both") = ExtractionMode.either ∧
    (∀ s : DashState, DashReachable s → sendsRequest s = true →
      requestBoundaryMode s.mode = ExtractionMode.highlighted ∨
      requestBoundaryMode s.mode = ExtractionMode.underlined) := by
  refine ⟨rfl, rfl, by decide, ?_⟩
  intro s hr hs
  rcases dash_mode_invariant s hr with h0 | h1 | h1
  · simp [sendsRequest, h0] at hs
  · rw [h1]
    exact Or.inl rfl
  · rw [h1]
    exact Or.inr rfl

/-- Witness: a concrete reachable state (file dropped, underlined option
clicked) sends a request resolving to one of the two offered modes. -/
theorem mode_selector_amended_witness :
    requestBoundaryMode dashAfterSelect.mode = ExtractionMode.highlighted ∨
    requestBoundaryMode dashAfterSelect.mode = ExtractionMode.underlined := by
  have h1 : DashReachable
      { initialDash with file := some "cards.docx", stage := "idle" } :=
    DashReachable.drop initialDash "cards.docx" DashReachable.init
  have h2 : DashReachable dashAfterSelect :=
    DashReachable.selectMode
      { initialDash with file := some "cards.docx", stage := "idle" }
      { id := "underlined", label := "Underlined",
        description := "Keeps underlined text", icon := "◈" }
      h1 (by decide) (by decide)
  exact mode_selector_amended.2.2.2 dashAfterSelect h2 (by decide)

/-- C7: malformed input fails with MalformedDocumentError and no output
bytes; extract propagates every Reader failure unchanged; and extraction
is all-or-nothing — the result is either an error or a complete
well-formed output package. -/
theorem extract_error_behavior (m : ExtractionMode) :
    extract Bytes.malformed m =
      Except.error ExtractError.MalformedDocumentError ∧
    (∀ (b : Bytes) (e : ExtractError), read b = Except.error e →
      extract b m = Except.error e) ∧
    (∀ b : Bytes, (∃ e, extract b m = Except.error e) ∨
      ∃ d : Document, extract b m = Except.ok (Bytes.wellFormed d)) := by
  refine ⟨rfl, ?_, ?_⟩
  · intro b e h
    unfold extract
    rw [h]
  · intro b
    cases b with
    | malformed => exact Or.inl ⟨ExtractError.MalformedDocumentError, rfl⟩
    | missingMainPart => exact Or.inl ⟨ExtractError.UnsupportedFormatError, rfl⟩
    | wellFormed d => exact Or.inr ⟨assemble d m, rfl⟩

/-- Witness: the Reader failure on a package without a main content part
is propagated unchanged by extract. -/
theorem extract_error_behavior_witness :
    extract Bytes.missingMainPart ExtractionMode.either =
      Except.error ExtractError.UnsupportedFormatError :=
  (extract_error_behavior ExtractionMode.either).2.1 Bytes.missingMainPart
    ExtractError.UnsupportedFormatError rfl

/-- C8: when assembly yields zero paragraphs, extract still succeeds and
returns a structurally valid empty output document rather than an error. -/
theorem empty_result_not_error (b : Bytes) (d : Document)
    (m : ExtractionMode) (h : read b = Except.ok d)
    (hz : assemble d m = []) :
    extract b m = Except.ok (Bytes.wellFormed []) := by
  unfold extract
  rw [h]
  show Except.ok (serialize (assemble d m)) = Except.ok (Bytes.wellFormed [])
  rw [hz]
  rfl

/-- Witness: a document whose only paragraph is unmarked body text
assembles to nothing, and extract returns the valid empty package. -/
theorem empty_result_not_error_witness :
    extract (Bytes.wellFormed [pPlain]) ExtractionMode.either =
      Except.ok (Bytes.wellFormed []) :=
  empty_result_not_error (Bytes.wellFormed [pPlain]) [pPlain]
    ExtractionMode.either rfl (by decide)

/-- C9: a document all of whose paragraphs are STRUCTURE is returned
unchanged by assembly and by extract, for every mode. -/
theorem structure_only_unchanged (doc : Document) (m : ExtractionMode)
    (h : ∀ p ∈ doc, classify p = Classification.STRUCTURE) :
    assemble doc m = doc ∧
    extract (Bytes.wellFormed doc) m =
      Except.ok (Bytes.wellFormed doc) := by
  have ha : assemble doc m = doc := by
    induction doc with
    | nil => rfl
    | cons p rest ih =>
      have hp : classify p = Classification.STRUCTURE :=
        h p (List.mem_cons_self p rest)
      have he : emitParagraph m p = some p := by
        unfold emitParagraph
        rw [hp]
      rw [assemble_cons_some p rest m p he,
        ih (fun q hq => h q (List.mem_cons_of_mem p hq))]
  refine ⟨ha, ?_⟩
  show Except.ok (Bytes.wellFormed (assemble doc m)) =
    Except.ok (Bytes.wellFormed doc)
  rw [ha]

/-- Witness: the one-tag document is returned unchanged under mode
UNDERLINED. -/
theorem structure_only_unchanged_witness :
    assemble [pTag] ExtractionMode.underlined = [pTag] ∧
    extract (Bytes.wellFormed [pTag]) ExtractionMode.underlined =
      Except.ok (Bytes.wellFormed [pTag]) :=
  structure_only_unchanged [pTag] ExtractionMode.underlined (by decide)

/-- C10: uploadFile returns a name made of the timestamp, an underscore
and the original file name, and a path equal to uploads/ ++ userId ++ /
++ name; hence the path always ends with the returned name and always
lies inside the uploading user own uploads namespace. -/
theorem uploadFile_path_correct (fileName userId : String)
    (timestamp : Nat) :
    (uploadFile fileName userId timestamp).name =
      toString timestamp ++ "_" ++ fileName ∧
    (uploadFile fileName userId timestamp).path =
      "uploads/" ++ userId ++ "/" ++ (uploadFile fileName userId timestamp).name ∧
    List.IsSuffix (uploadFile fileName userId timestamp).name.data
      (uploadFile fileName userId timestamp).path.data ∧
    List.IsPrefix ("uploads/" ++ userId ++ "/").data
      (uploadFile fileName userId timestamp).path.data := by
  refine ⟨rfl, rfl, ?_, ?_⟩
  · exact ⟨("uploads/" ++ userId ++ "/").data, by
      simp [uploadFile, String.data_append]⟩
  · exact ⟨(toString timestamp ++ "_" ++ fileName).data, by
      simp [uploadFile, String.data_append]⟩

end ReadDoc
